import Mathlib

/-!
# Verification of `monitor_serial.py` (OpenChord serial monitor)

Shallow embedding of `src/monitor_serial.py` and proofs of the spec's
claims about it.  Python strings are modelled as `List Char`; byte
sequences read from the serial port as `List Nat` (each `< 256`); decoded
text as `List Nat` of Unicode code points.  Exceptions are modelled as
events delivered to the monitor loop, and the `try`/`except` chains are
modelled as explicit class dispatch.
-/

namespace MonitorSerial

/-! ## Port auto-detection (`find_daisy_port`, lines 25-40) -/

/-- A serial port descriptor as produced by `serial.tools.list_ports.comports()`:
a device path plus a human-readable description. -/
structure PortInfo where
  device : List Char
  description : List Char
deriving DecidableEq, Repr

/-- Python's `str.lower()` restricted to ASCII data (the device paths and
descriptions relevant here are ASCII; `Char.toLower` lowers exactly the
basic latin letters, as Python does on such input). -/
def lowerStr (s : List Char) : List Char := s.map Char.toLower

/-- Python's substring test `needle in hay`. -/
def containsSub (hay needle : List Char) : Bool :=
  hay.tails.any (fun t => needle.isPrefixOf t)

/-- The keyword list of `find_daisy_port` (line 30), verbatim from the
source — note that `"SLAB"` is upper case there. -/
def daisy_keywords : List (List Char) :=
  ["daisy".toList, "seed".toList, "stm".toList,
   "usbmodem".toList, "usbserial".toList, "SLAB".toList]

/-- The inner loop of `find_daisy_port` (lines 32-38): the port matches if
some keyword occurs in the lowercased description or the lowercased
device path. -/
def portMatches (p : PortInfo) : Bool :=
  daisy_keywords.any (fun k =>
    containsSub (lowerStr p.description) k || containsSub (lowerStr p.device) k)

/-- `find_daisy_port` (lines 25-40): returns the device of the first
matching port in enumeration order, `none` if no port matches. -/
def find_daisy_port (ports : List PortInfo) : Option (List Char) :=
  match ports with
  | [] => none
  | p :: rest => if portMatches p then some p.device else find_daisy_port rest

/-- Modelled from the spec: the matcher §4.2/§8 describe, where keyword
containment is tested *case-insensitively* (both the port fields and the
keyword lowered).  This is the spec-side comparator to be diffed against
the source-side `portMatches`. -/
def ciPortMatches (p : PortInfo) : Bool :=
  daisy_keywords.any (fun k =>
    containsSub (lowerStr p.description) (lowerStr k) ||
    containsSub (lowerStr p.device) (lowerStr k))

/-- A Silicon Labs CP210x USB-UART bridge as it appears on macOS: the
device node the `"SLAB"` keyword is aimed at. -/
def slabPort : PortInfo :=
  { device := "/dev/tty.SLAB_USBtoUART".toList
    description := "CP2102N USB to UART Bridge Controller".toList }

example : portMatches slabPort = false := by decide
example : ciPortMatches slabPort = true := by decide
example : find_daisy_port [slabPort] = none := by decide

/-! ## UTF-8 decoding (`bytes.decode('utf-8', errors=...)`, line 70)

`utf8DecodeOne` recognises one code point at the head of a byte list,
with CPython's validity rules: no bytes `0x80`-`0xC1` or `0xF5`-`0xFF` in
lead position, continuation bytes in `0x80`-`0xBF`, no overlong forms, no
surrogates, nothing above `U+10FFFF`.  `decodeUtf8 strict` then decodes a
whole list: on an invalid position, `strict = true` raises
(`UnicodeDecodeError`, modelled as `Except.error`), `strict = false`
(`errors='ignore'`) skips one byte and continues.  For the `ignore`
handler skipping byte-by-byte is extensionally the same as CPython's
skipping of the maximal invalid subsequence, because the unconsumed tail
of such a subsequence consists of continuation bytes, each itself invalid
in lead position. -/

/-- Is `b` a UTF-8 continuation byte (`0x80`-`0xBF`)? -/
def isCont (b : Nat) : Bool := 0x80 ≤ b && b < 0xC0

/-- Decode one code point from the head of a byte list; `none` when the
head is not a valid UTF-8 sequence. -/
def utf8DecodeOne : List Nat → Option (Nat × List Nat)
  | [] => none
  | b0 :: rest =>
    if b0 < 0x80 then some (b0, rest)
    else if b0 < 0xC2 then none
    else if b0 < 0xE0 then
      match rest with
      | b1 :: rest1 =>
        if isCont b1 then some ((b0 - 0xC0) * 64 + (b1 - 0x80), rest1) else none
      | [] => none
    else if b0 < 0xF0 then
      match rest with
      | b1 :: b2 :: rest2 =>
        if isCont b1 && isCont b2 && (b0 != 0xE0 || 0xA0 ≤ b1) && (b0 != 0xED || b1 < 0xA0)
        then some ((b0 - 0xE0) * 4096 + (b1 - 0x80) * 64 + (b2 - 0x80), rest2)
        else none
      | _ => none
    else if b0 < 0xF5 then
      match rest with
      | b1 :: b2 :: b3 :: rest3 =>
        if isCont b1 && isCont b2 && isCont b3 && (b0 != 0xF0 || 0x90 ≤ b1) && (b0 != 0xF4 || b1 < 0x90)
        then some ((b0 - 0xF0) * 262144 + (b1 - 0x80) * 4096 + (b2 - 0x80) * 64 + (b3 - 0x80), rest3)
        else none
      | _ => none
    else none

theorem utf8DecodeOne_length {l : List Nat} {cp : Nat} {r : List Nat}
    (h : utf8DecodeOne l = some (cp, r)) : r.length < l.length := by
  cases l with
  | nil => simp [utf8DecodeOne] at h
  | cons b0 rest =>
    simp only [utf8DecodeOne] at h
    repeat' split at h
    all_goals simp_all
    all_goals omega

/-- `bytes.decode('utf-8', errors=...)`: `strict = true` is the default
(raising) decoder, `strict = false` is `errors='ignore'`, which skips
the offending byte and resumes decoding. -/
def decodeUtf8 (strict : Bool) : List Nat → Except Unit (List Nat)
  | [] => Except.ok []
  | b :: rest =>
    match h : utf8DecodeOne (b :: rest) with
    | some (cp, rest1) => (decodeUtf8 strict rest1).map (fun t => cp :: t)
    | none => if strict then Except.error () else decodeUtf8 strict rest
termination_by l => l.length
decreasing_by
  · exact utf8DecodeOne_length h
  · simp

/-- When the head of the list is a valid UTF-8 sequence, `decodeUtf8`
decodes it and continues on the remaining bytes. -/
theorem decodeUtf8_cons_some {b0 : Nat} {rest : List Nat} {cp : Nat} {r : List Nat}
    (strict : Bool) (h : utf8DecodeOne (b0 :: rest) = some (cp, r)) :
    decodeUtf8 strict (b0 :: rest) = (decodeUtf8 strict r).map (fun t => cp :: t) := by
  rw [decodeUtf8]
  split
  all_goals simp_all

/-- When the head of the list is not a valid UTF-8 sequence, `decodeUtf8`
raises in strict mode and skips one byte in ignore mode. -/
theorem decodeUtf8_cons_none {b0 : Nat} {rest : List Nat}
    (strict : Bool) (h : utf8DecodeOne (b0 :: rest) = none) :
    decodeUtf8 strict (b0 :: rest) =
      if strict then Except.error () else decodeUtf8 strict rest := by
  rw [decodeUtf8]
  split
  all_goals simp_all

example : decodeUtf8 false [72, 105, 0xFF, 65] = Except.ok [72, 105, 65] := by
  simp [decodeUtf8, utf8DecodeOne, isCont, Except.map]
example : decodeUtf8 true [72, 105, 0xFF, 65] = Except.error () := by
  simp [decodeUtf8, utf8DecodeOne, isCont, Except.map]
example : decodeUtf8 false [0xE0, 0x80, 0x80] = Except.ok [] := by
  simp [decodeUtf8, utf8DecodeOne, isCont, Except.map]
example : decodeUtf8 true [0xC3, 0xA9] = Except.ok [0xE9] := by
  simp [decodeUtf8, utf8DecodeOne, isCont, Except.map]

/-- A byte that cannot occur anywhere in valid UTF-8 in lead position in
CPython's decoder: a stray continuation byte (`0x80`-`0xBF`), an overlong
lead (`0xC0`, `0xC1`), or a byte above `0xF4`. -/
def invalidStartByte (c : Nat) : Bool := (0x80 ≤ c && c < 0xC2) || 0xF5 ≤ c

theorem utf8DecodeOne_invalid {c : Nat} (l : List Nat)
    (h : invalidStartByte c = true) : utf8DecodeOne (c :: l) = none := by
  simp only [invalidStartByte, Bool.or_eq_true, Bool.and_eq_true,
    decide_eq_true_eq] at h
  simp only [utf8DecodeOne]
  rcases h with ⟨h1, h2⟩ | h1
  · rw [if_neg (by omega), if_pos (by omega)]
  · rw [if_neg (by omega), if_neg (by omega), if_neg (by omega),
      if_neg (by omega), if_neg (by omega)]

set_option maxRecDepth 4000 in
/-- Recognising one code point only inspects the consumed bytes: appending
more bytes after them does not change the result. -/
theorem utf8DecodeOne_append {l : List Nat} {cp : Nat} {r : List Nat}
    (t : List Nat) (h : utf8DecodeOne l = some (cp, r)) :
    utf8DecodeOne (l ++ t) = some (cp, r ++ t) := by
  cases l with
  | nil => simp [utf8DecodeOne] at h
  | cons b0 rest =>
    simp only [utf8DecodeOne] at h
    repeat' split at h
    all_goals cases h
    all_goals simp_all [utf8DecodeOne, List.cons_append]
    all_goals repeat' rw [if_neg (by omega)]

/-- With `errors='ignore'` the decoder is total: it never raises. -/
theorem decodeUtf8_ignore_isOk (l : List Nat) : (decodeUtf8 false l).isOk = true := by
  have aux : ∀ (n : Nat) (l : List Nat), l.length ≤ n → (decodeUtf8 false l).isOk = true := by
    intro n
    induction n with
    | zero =>
      intro l hlen
      cases l with
      | nil => simp [decodeUtf8, Except.isOk, Except.toBool]
      | cons b rest => simp at hlen
    | succ n ih =>
      intro l hlen
      cases l with
      | nil => simp [decodeUtf8, Except.isOk, Except.toBool]
      | cons b rest =>
        cases hdec : utf8DecodeOne (b :: rest) with
        | some v =>
          obtain ⟨cp, r⟩ := v
          rw [decodeUtf8_cons_some false hdec]
          have hlt := utf8DecodeOne_length hdec
          have hok := ih r (by simp at hlen hlt ⊢; omega)
          cases hr : decodeUtf8 false r with
          | ok t => simp [Except.map, Except.isOk, Except.toBool]
          | error e => rw [hr] at hok; simp [Except.isOk, Except.toBool] at hok
        | none =>
          rw [decodeUtf8_cons_none false hdec]
          simp only [Bool.false_eq_true, if_false]
          exact ih rest (by simp at hlen ⊢; omega)
  exact aux l.length l le_rfl

/-- On bytes that strict decoding accepts, `errors='ignore'` decoding
yields the same text. -/
theorem decodeUtf8_ignore_of_strict {l : List Nat} {t : List Nat}
    (h : decodeUtf8 true l = Except.ok t) : decodeUtf8 false l = Except.ok t := by
  have aux : ∀ (n : Nat) (l : List Nat), l.length ≤ n → ∀ t,
      decodeUtf8 true l = Except.ok t → decodeUtf8 false l = Except.ok t := by
    intro n
    induction n with
    | zero =>
      intro l hlen t ht
      cases l with
      | nil => simpa [decodeUtf8] using ht
      | cons b rest => simp at hlen
    | succ n ih =>
      intro l hlen t ht
      cases l with
      | nil => simpa [decodeUtf8] using ht
      | cons b rest =>
        cases hdec : utf8DecodeOne (b :: rest) with
        | some v =>
          obtain ⟨cp, r⟩ := v
          rw [decodeUtf8_cons_some true hdec] at ht
          rw [decodeUtf8_cons_some false hdec]
          have hlt := utf8DecodeOne_length hdec
          cases hr : decodeUtf8 true r with
          | ok t1 =>
            rw [hr] at ht
            simp only [Except.map] at ht
            rw [ih r (by simp at hlen hlt ⊢; omega) t1 hr]
            simpa [Except.map] using ht
          | error e => rw [hr] at ht; simp [Except.map] at ht
        | none =>
          rw [decodeUtf8_cons_none true hdec] at ht
          simp at ht
  exact aux l.length l le_rfl t h

/-- Core decoding property: one invalid byte surrounded by valid UTF-8
is skipped by `errors='ignore'`, the surrounding text decoding exactly as
it would without the byte. -/
theorem decodeUtf8_ignore_splits {l1 l2 : List Nat} {t1 t2 : List Nat} {c : Nat}
    (h1 : decodeUtf8 true l1 = Except.ok t1) (h2 : decodeUtf8 true l2 = Except.ok t2)
    (hc : invalidStartByte c = true) :
    decodeUtf8 false (l1 ++ c :: l2) = Except.ok (t1 ++ t2) := by
  have aux : ∀ (n : Nat) (l1 : List Nat), l1.length ≤ n → ∀ t1,
      decodeUtf8 true l1 = Except.ok t1 →
      decodeUtf8 false (l1 ++ c :: l2) = Except.ok (t1 ++ t2) := by
    intro n
    induction n with
    | zero =>
      intro l1 hlen t1 ht
      cases l1 with
      | nil =>
        simp only [decodeUtf8] at ht
        obtain rfl : t1 = [] := by simpa using ht.symm
        rw [List.nil_append, List.nil_append,
          decodeUtf8_cons_none false (utf8DecodeOne_invalid l2 hc)]
        simpa using decodeUtf8_ignore_of_strict h2
      | cons b rest => simp at hlen
    | succ n ih =>
      intro l1 hlen t1 ht
      cases l1 with
      | nil =>
        simp only [decodeUtf8] at ht
        obtain rfl : t1 = [] := by simpa using ht.symm
        rw [List.nil_append, List.nil_append,
          decodeUtf8_cons_none false (utf8DecodeOne_invalid l2 hc)]
        simpa using decodeUtf8_ignore_of_strict h2
      | cons b rest =>
        cases hdec : utf8DecodeOne (b :: rest) with
        | some v =>
          obtain ⟨cp, r⟩ := v
          rw [decodeUtf8_cons_some true hdec] at ht
          have hlt := utf8DecodeOne_length hdec
          cases hr : decodeUtf8 true r with
          | ok tr =>
            rw [hr] at ht
            simp only [Except.map, Except.ok.injEq] at ht
            have happ := utf8DecodeOne_append (c :: l2) hdec
            rw [List.cons_append, decodeUtf8_cons_some false (by simpa using happ)]
            rw [ih r (by simp at hlen hlt ⊢; omega) tr hr]
            simp [Except.map, ← ht]
          | error e => rw [hr] at ht; simp [Except.map] at ht
        | none =>
          rw [decodeUtf8_cons_none true hdec] at ht
          simp at ht
  exact aux l1.length l1 le_rfl t1 h1

/-! ## `str.strip()` (line 70) -/

/-- Python's whitespace class (the set `str.strip()` with no argument
removes, which is the `str.isspace` set), over code points. -/
def isPySpace (c : Nat) : Bool :=
  (9 ≤ c && c ≤ 13) || (28 ≤ c && c ≤ 32) || c == 0x85 || c == 0xA0 ||
  c == 0x1680 || (0x2000 ≤ c && c ≤ 0x200A) || c == 0x2028 || c == 0x2029 ||
  c == 0x202F || c == 0x205F || c == 0x3000

/-- Python `str.strip()`: remove leading and trailing whitespace. -/
def pyStrip (l : List Nat) : List Nat :=
  ((l.dropWhile isPySpace).reverse.dropWhile isPySpace).reverse

theorem pyStrip_all_space {l : List Nat} (h : ∀ c ∈ l, isPySpace c = true) :
    pyStrip l = [] := by
  have h1 : l.dropWhile isPySpace = [] := List.dropWhile_eq_nil_iff.mpr h
  simp [pyStrip, h1]

/-! ## The Line Monitor (`monitor_serial`, lines 42-93) and CLI (`main`, lines 95-121)

The monitor loop is driven by a finite trace of events: at each iteration
either no bytes are waiting (`idle`: `in_waiting == 0`, followed by
`time.sleep(0.01)`), a line of raw bytes is read (`data`), or a Python
exception is raised by the serial layer or the user during the iteration
(`raised`).  A trace that runs out of events leaves the loop still
running (`MonExit.running`) — the loop itself is unbounded.  Printing is
modelled as the ordered list of print events, one `Msg` constructor per
`print` site, carrying the interpolated data where there is any. -/

/-- The exception classes that can reach `monitor_serial`'s `try` block:
`serial.SerialException` (an `Exception` subclass, raised by open/read),
`KeyboardInterrupt` (a direct `BaseException` subclass, raised by Ctrl+C)
and any other `Exception` subclass. -/
inductive PyExc
  | serialException
  | keyboardInterrupt
  | runtimeError
deriving DecidableEq, Repr

/-- Python's `isinstance(e, Exception)`: `KeyboardInterrupt` derives only
from `BaseException`, not from `Exception`. -/
def isException : PyExc → Bool
  | .keyboardInterrupt => false
  | _ => true

/-- One iteration's worth of interaction with the serial layer. -/
inductive LoopEvent
  | idle
  | data (bytes : List Nat)
  | raised (e : PyExc)
deriving DecidableEq, Repr

/-- One `Msg` per `print` site of the program (blocks of consecutive
prints with fixed text are merged into one constructor). -/
inductive Msg
  | searching
  | foundPort (device : List Char)
  | couldNotAutoDetect
  | availableHeader
  | portLine (device descr : List Char)
  | noSerialPortsFound
  | makeSure
  | itemConnected
  | itemNotBootloader
  | itemNoOtherProgram
  | itemFirmwareRunning
  | specifyManually
  | usageExample (device : List Char)
  | banner
  | errorOpeningPort
  | monitoringStopped
  | unexpectedError
  | serialLine (line : List Nat)
deriving DecidableEq, Repr

/-- How a run of `monitor_serial` ends: `finished code connOpen` is a
`return code` with `connOpen` recording whether the serial handle is
still open at that point; `running` means the event trace ended with the
loop still going; `uncaught e` means `e` escaped the except chain. -/
inductive MonExit
  | finished (code : Nat) (connOpen : Bool)
  | running
  | uncaught (e : PyExc)
deriving DecidableEq, Repr

/-- Result of a `monitor_serial` run: everything printed, how it ended,
and whether the `except UnicodeDecodeError` arm (lines 73-75) ever ran. -/
structure RunResult where
  msgs : List Msg
  exit : MonExit
  decodeHandlerHit : Bool
deriving DecidableEq, Repr

/-- The three except clauses of `monitor_serial` (lines 79-93). -/
inductive MonHandler
  | onSerial
  | onKeyboard
  | onGeneric
deriving DecidableEq, Repr

/-- The except chain of `monitor_serial` in source order:
`except serial.SerialException`, `except KeyboardInterrupt`,
`except Exception`.  `none` means no clause matches and the exception
propagates out of the function. -/
def dispatchMonitor (e : PyExc) : Option MonHandler :=
  if e = .serialException then some .onSerial
  else if e = .keyboardInterrupt then some .onKeyboard
  else if isException e then some .onGeneric
  else none

/-- Run one except clause, with `conn` the connection-open flag at the
moment the exception arrived:
* `onSerial` (lines 79-85): print the open-error diagnostic and checklist,
  `return 1` — the handle is not closed;
* `onKeyboard` (lines 86-90): print, `ser.close()` if open, `return 0`;
* `onGeneric` (lines 91-93): print the unexpected-error line, `return 1` —
  the handle is not closed. -/
def applyHandler (h : MonHandler) (msgs : List Msg) (hit : Bool) (conn : Bool) : RunResult :=
  match h with
  | .onSerial =>
    ⟨msgs ++ [.errorOpeningPort, .makeSure, .itemConnected, .itemNotBootloader,
      .itemNoOtherProgram], .finished 1 conn, hit⟩
  | .onKeyboard => ⟨msgs ++ [.monitoringStopped], .finished 0 false, hit⟩
  | .onGeneric => ⟨msgs ++ [.unexpectedError], .finished 1 conn, hit⟩

/-- The monitor loop (lines 67-77): on `data`, decode with
`errors='ignore'` (a `UnicodeDecodeError` would be swallowed by the inner
`except` and recorded in the `hit` flag), strip, and print if non-empty;
on `raised`, dispatch through the except chain.  The connection is open
for the whole loop. -/
def runLoop : List LoopEvent → List Msg → Bool → RunResult
  | [], msgs, hit => ⟨msgs, .running, hit⟩
  | .idle :: rest, msgs, hit => runLoop rest msgs hit
  | .data bs :: rest, msgs, hit =>
    (match decodeUtf8 false bs with
     | .ok cps =>
       let line := pyStrip cps
       if line.isEmpty then runLoop rest msgs hit
       else runLoop rest (msgs ++ [.serialLine line]) hit
     | .error _ => runLoop rest msgs true)
  | .raised e :: _, msgs, hit =>
    (match dispatchMonitor e with
     | some h => applyHandler h msgs hit true
     | none => ⟨msgs, .uncaught e, hit⟩)

/-- `monitor_serial(port_name)` (lines 42-93).  `openOk` says whether
`serial.Serial(...)` succeeds; a failing open raises
`serial.SerialException`, caught by the first except clause with no
connection open.  On success the banner block is printed, the stale input
buffer is cleared (`reset_input_buffer`, no observable effect here) and
the loop runs over `events`. -/
def monitor_serial (openOk : Bool) (events : List LoopEvent) : RunResult :=
  if openOk then runLoop events [Msg.banner] false
  else applyHandler .onSerial [] false false

/-- Result of `main()`: the run result plus whether `find_daisy_port`
and `list_available_ports` were ever called. -/
structure MainResult where
  msgs : List Msg
  exit : MonExit
  decodeHandlerHit : Bool
  usedAutoDetect : Bool
  usedEnumeration : Bool
deriving DecidableEq, Repr

/-- `list_available_ports()` (lines 15-23): prints the table (header,
separators and one line per port) and returns the device list. -/
def list_available_ports (ports : List PortInfo) : List Msg × List (List Char) :=
  ([Msg.availableHeader] ++ ports.map (fun p => Msg.portLine p.device p.description),
   ports.map (fun p => p.device))

/-- `main()` (lines 95-121): with an explicit argument go straight to the
monitor; otherwise auto-detect, and on a miss list the ports and report
(`return 1`), distinguishing the empty enumeration. -/
def main (arg : Option (List Char)) (ports : List PortInfo)
    (openOk : Bool) (events : List LoopEvent) : MainResult :=
  match arg with
  | some _ =>
    let r := monitor_serial openOk events
    ⟨r.msgs, r.exit, r.decodeHandlerHit, false, false⟩
  | none =>
    match find_daisy_port ports with
    | some dev =>
      let r := monitor_serial openOk events
      ⟨[.searching, .foundPort dev] ++ r.msgs, r.exit, r.decodeHandlerHit, true, false⟩
    | none =>
      let listed := list_available_ports ports
      if listed.2.isEmpty then
        ⟨[.searching, .couldNotAutoDetect] ++ listed.1 ++
          [.noSerialPortsFound, .makeSure, .itemConnected, .itemNotBootloader,
            .itemFirmwareRunning],
          .finished 1 false, false, true, true⟩
      else
        ⟨[.searching, .couldNotAutoDetect] ++ listed.1 ++
          [.specifyManually, .usageExample (listed.2.headD [])],
          .finished 1 false, false, true, true⟩

/-! ## Helper lemmas about the monitor loop -/

/-- In any handler-terminated state reached from inside the loop (where
the connection is open), the connection is closed exactly on the
interrupt path, which is also exactly the success-exit path. -/
theorem applyHandler_exit_conn (hnd : MonHandler) (msgs : List Msg) (hit : Bool)
    {code : Nat} {conn : Bool}
    (h : (applyHandler hnd msgs hit true).exit = MonExit.finished code conn) :
    conn = false ↔ code = 0 := by
  cases hnd <;> simp [applyHandler] at h <;> obtain ⟨h1, h2⟩ := h <;>
    subst h1 <;> subst h2 <;> simp

/-- Terminal states of the loop close the connection exactly on the
`KeyboardInterrupt` (exit code 0) path. -/
theorem runLoop_exit_conn : ∀ (events : List LoopEvent) (msgs : List Msg) (hit : Bool)
    (code : Nat) (conn : Bool),
    (runLoop events msgs hit).exit = MonExit.finished code conn →
    (conn = false ↔ code = 0) := by
  intro events
  induction events with
  | nil => intro msgs hit code conn h; simp [runLoop] at h
  | cons e rest ih =>
    intro msgs hit code conn h
    cases e with
    | idle => exact ih _ _ _ _ h
    | data bs =>
      simp only [runLoop] at h
      cases hdec : decodeUtf8 false bs with
      | ok cps =>
        rw [hdec] at h
        dsimp only at h
        split at h
        · exact ih _ _ _ _ h
        · exact ih _ _ _ _ h
      | error err =>
        rw [hdec] at h
        exact ih _ _ _ _ h
    | raised exc =>
      simp only [runLoop] at h
      cases exc <;> exact applyHandler_exit_conn _ _ _ h

/-- Did the run avoid ending in an uncaught exception? -/
def exitCaught : MonExit → Bool
  | .uncaught _ => false
  | _ => true

/-- If the run returned, was the exit code 0 or 1? -/
def exitCodeLe1 : MonExit → Bool
  | .finished c _ => c == 0 || c == 1
  | _ => true

/-- The loop never ends in an uncaught exception, and every return code
is 0 or 1. -/
theorem runLoop_exit_tame : ∀ (events : List LoopEvent) (msgs : List Msg) (hit : Bool),
    exitCaught (runLoop events msgs hit).exit = true ∧
    exitCodeLe1 (runLoop events msgs hit).exit = true := by
  intro events
  induction events with
  | nil => intro msgs hit; simp [runLoop, exitCaught, exitCodeLe1]
  | cons e rest ih =>
    intro msgs hit
    cases e with
    | idle => exact ih _ _
    | data bs =>
      simp only [runLoop]
      cases hdec : decodeUtf8 false bs with
      | ok cps =>
        dsimp only
        split
        · exact ih _ _
        · exact ih _ _
      | error err => exact ih _ _
    | raised exc =>
      simp only [runLoop]
      cases exc <;> simp [dispatchMonitor, isException, applyHandler, exitCaught, exitCodeLe1]

/-- Lines printed from the loop are never empty (given that holds of the
output accumulated so far). -/
theorem runLoop_serialLine_ne_nil : ∀ (events : List LoopEvent) (msgs : List Msg) (hit : Bool),
    (∀ l, Msg.serialLine l ∈ msgs → l ≠ []) →
    ∀ l, Msg.serialLine l ∈ (runLoop events msgs hit).msgs → l ≠ [] := by
  intro events
  induction events with
  | nil =>
    intro msgs hit hm l hl
    simp only [runLoop] at hl
    exact hm l hl
  | cons e rest ih =>
    intro msgs hit hm l hl
    cases e with
    | idle => exact ih _ _ hm l hl
    | data bs =>
      simp only [runLoop] at hl
      cases hdec : decodeUtf8 false bs with
      | ok cps =>
        rw [hdec] at hl
        dsimp only at hl
        by_cases hemp : (pyStrip cps).isEmpty
        · rw [if_pos hemp] at hl
          exact ih _ _ hm l hl
        · rw [if_neg hemp] at hl
          refine ih _ _ ?_ l hl
          intro lx hlx
          rcases List.mem_append.mp hlx with h1 | h2
          · exact hm lx h1
          · have h3 : lx = pyStrip cps := by simpa using h2
            subst h3
            intro hc
            exact hemp (by simp [hc])
      | error err =>
        rw [hdec] at hl
        exact ih _ _ hm l hl
    | raised exc =>
      simp only [runLoop] at hl
      cases exc <;>
        simp only [dispatchMonitor, isException, applyHandler] at hl <;>
        simp at hl <;>
        exact hm l (by simpa using hl)

/-- Starting with the flag down, the `except UnicodeDecodeError` arm never
runs: the flag stays down in every reachable state. -/
theorem runLoop_hit_false : ∀ (events : List LoopEvent) (msgs : List Msg),
    (runLoop events msgs false).decodeHandlerHit = false := by
  intro events
  induction events with
  | nil => intro msgs; rfl
  | cons e rest ih =>
    intro msgs
    cases e with
    | idle => exact ih _
    | data bs =>
      simp only [runLoop]
      cases hdec : decodeUtf8 false bs with
      | ok cps =>
        dsimp only
        split
        · exact ih _
        · exact ih _
      | error err =>
        exact absurd (decodeUtf8_ignore_isOk bs)
          (by rw [hdec]; simp [Except.isOk, Except.toBool])
    | raised exc =>
      simp only [runLoop]
      cases exc <;> simp [dispatchMonitor, isException, applyHandler]

/-! ## The claims -/

/-- A port whose device path and description contain no
`find_daisy_port` keyword (under either comparison). -/
def uartPort : PortInfo :=
  { device := "/dev/ttyAMA0".toList, description := "PL011 UART".toList }

/-- C1 (code bug): the spec requires case-insensitive keyword matching,
and the descriptor of a Silicon Labs bridge at `/dev/tty.SLAB_USBtoUART`
contains the configured keyword `"SLAB"` case-insensitively, so
auto-detect should return its device path.  The code lowercases the two
descriptor fields but compares them against the verbatim keyword list,
whose entry `"SLAB"` is upper case and hence can never occur in a
lowercased string: `find_daisy_port` returns `none` on exactly the
device that keyword targets. -/
theorem find_daisy_port_misses_slab_device :
    ciPortMatches slabPort = true ∧ find_daisy_port [slabPort] = none := by decide

/-- C2, as stated, fails on the code: not every terminal state of
`monitor_serial` has the connection closed.  A `serial.SerialException`
raised during the read loop reaches a handler that returns exit code 1
without closing the handle. -/
theorem monitor_serial_close_counterexample :
    ¬ (∀ (openOk : Bool) (events : List LoopEvent) (code : Nat) (conn : Bool),
        (monitor_serial openOk events).exit = MonExit.finished code conn →
        conn = false) := by
  intro hall
  exact absurd (hall true [LoopEvent.raised PyExc.serialException] 1 true (by decide))
    (by decide)

/-- C2 (amended): in a terminal state of `monitor_serial` the connection
handle has been released exactly when the run ended via
`KeyboardInterrupt` (exit code 0) or the open itself failed (so no
handle was ever acquired); on the serial-error-during-read and
unexpected-error exits the function returns with the handle still open. -/
theorem monitor_serial_conn_released_iff :
    ∀ (openOk : Bool) (events : List LoopEvent) (code : Nat) (conn : Bool),
      (monitor_serial openOk events).exit = MonExit.finished code conn →
      (conn = false ↔ (code = 0 ∨ openOk = false)) := by
  intro openOk events code conn h
  cases openOk with
  | true =>
    have hiff := runLoop_exit_conn events [Msg.banner] false code conn h
    simpa using hiff
  | false =>
    simp only [monitor_serial, Bool.false_eq_true, if_false, applyHandler] at h
    obtain ⟨h1, h2⟩ := by simpa using h
    subst h1
    subst h2
    simp

/-- Witness for C2 (amended) at the interrupt exit. -/
theorem monitor_serial_conn_released_iff_witness :
    (monitor_serial true [LoopEvent.raised PyExc.keyboardInterrupt]).exit =
      MonExit.finished 0 false ∧
    (false = false ↔ (0 = 0 ∨ true = false)) :=
  ⟨by decide,
   monitor_serial_conn_released_iff true [LoopEvent.raised PyExc.keyboardInterrupt] 0 false
     (by decide)⟩

/-- Any property of the loop states reachable from the tail of the trace
holds after first processing a prefix of benign (non-raising) events:
`idle` and `data` iterations never terminate the loop, they only grow the
printed output (and, notionally, the decode-handler flag). -/
theorem runLoop_skip_benign (P : RunResult → Prop) :
    ∀ (pre tail : List LoopEvent) (msgs : List Msg) (hit : Bool),
      (∀ ev ∈ pre, ∀ ex, ev ≠ LoopEvent.raised ex) →
      (∀ (msgs1 : List Msg) (hit1 : Bool), P (runLoop tail msgs1 hit1)) →
      P (runLoop (pre ++ tail) msgs hit) := by
  intro pre
  induction pre with
  | nil => intro tail msgs hit _ hP; exact hP msgs hit
  | cons ev pre1 ih =>
    intro tail msgs hit hpre hP
    have hpre1 : ∀ e ∈ pre1, ∀ ex, e ≠ LoopEvent.raised ex :=
      fun e he => hpre e (by simp [he])
    cases ev with
    | idle => exact ih tail msgs hit hpre1 hP
    | data bs =>
      show P (runLoop (LoopEvent.data bs :: (pre1 ++ tail)) msgs hit)
      simp only [runLoop]
      cases hdec : decodeUtf8 false bs with
      | ok cps =>
        dsimp only
        split
        · exact ih tail msgs hit hpre1 hP
        · exact ih tail _ hit hpre1 hP
      | error err => exact ih tail msgs true hpre1 hP
    | raised ex => exact absurd rfl (hpre (LoopEvent.raised ex) (by simp) ex)

/-- C3: every failure kind is caught inside the program and converted
into a printed diagnostic plus a process exit code: no run of `main`
ends in an uncaught exception and every terminating run returns exit
code 0 or 1; and each failure kind produces its own diagnostic —
enumeration-empty prints "No serial ports found!" (code 1), an
auto-detect miss prints the specify-manually hint (code 1), a connection
error prints the open-error diagnostic (code 1), a user interrupt raised
in the loop prints the closing message (code 0), and an unexpected
runtime fault raised in the loop prints the unexpected-error line
(code 1). -/
theorem main_all_failures_caught :
    (∀ (arg : Option (List Char)) (ports : List PortInfo)
       (openOk : Bool) (events : List LoopEvent),
       exitCaught (main arg ports openOk events).exit = true ∧
       exitCodeLe1 (main arg ports openOk events).exit = true) ∧
    (∀ (openOk : Bool) (events : List LoopEvent),
       (main none [] openOk events).exit = MonExit.finished 1 false ∧
       Msg.noSerialPortsFound ∈ (main none [] openOk events).msgs) ∧
    (∀ (p : PortInfo) (rest : List PortInfo) (openOk : Bool) (events : List LoopEvent),
       find_daisy_port (p :: rest) = none →
       (main none (p :: rest) openOk events).exit = MonExit.finished 1 false ∧
       Msg.specifyManually ∈ (main none (p :: rest) openOk events).msgs) ∧
    (∀ (a : List Char) (ports : List PortInfo) (events : List LoopEvent),
       (main (some a) ports false events).exit = MonExit.finished 1 false ∧
       Msg.errorOpeningPort ∈ (main (some a) ports false events).msgs) ∧
    (∀ (a : List Char) (ports : List PortInfo) (pre post : List LoopEvent),
       (∀ ev ∈ pre, ∀ ex, ev ≠ LoopEvent.raised ex) →
       (main (some a) ports true
         (pre ++ LoopEvent.raised PyExc.keyboardInterrupt :: post)).exit =
           MonExit.finished 0 false ∧
       Msg.monitoringStopped ∈ (main (some a) ports true
         (pre ++ LoopEvent.raised PyExc.keyboardInterrupt :: post)).msgs) ∧
    (∀ (a : List Char) (ports : List PortInfo) (pre post : List LoopEvent),
       (∀ ev ∈ pre, ∀ ex, ev ≠ LoopEvent.raised ex) →
       (main (some a) ports true
         (pre ++ LoopEvent.raised PyExc.runtimeError :: post)).exit =
           MonExit.finished 1 true ∧
       Msg.unexpectedError ∈ (main (some a) ports true
         (pre ++ LoopEvent.raised PyExc.runtimeError :: post)).msgs) := by
  refine ⟨?_, ?_, ?_, ?_, ?_, ?_⟩
  · intro arg ports openOk events
    have hmon : ∀ ok, exitCaught (monitor_serial ok events).exit = true ∧
        exitCodeLe1 (monitor_serial ok events).exit = true := by
      intro ok
      cases ok with
      | true => exact runLoop_exit_tame events [Msg.banner] false
      | false => exact ⟨rfl, rfl⟩
    cases arg with
    | some a => exact hmon openOk
    | none =>
      cases hfd : find_daisy_port ports with
      | some dev =>
        simp only [main]
        rw [hfd]
        exact hmon openOk
      | none =>
        simp only [main]
        rw [hfd]
        cases hie : (list_available_ports ports).2.isEmpty <;>
          simp [hie, exitCaught, exitCodeLe1]
  · intro openOk events
    have hmain : main none [] openOk events =
        ⟨[.searching, .couldNotAutoDetect, .availableHeader, .noSerialPortsFound, .makeSure,
          .itemConnected, .itemNotBootloader, .itemFirmwareRunning],
          .finished 1 false, false, true, true⟩ := rfl
    rw [hmain]
    exact ⟨rfl, by decide⟩
  · intro p rest openOk events hmiss
    have hmain : main none (p :: rest) openOk events =
        ⟨[.searching, .couldNotAutoDetect] ++ (list_available_ports (p :: rest)).1 ++
          [.specifyManually, .usageExample ((list_available_ports (p :: rest)).2.headD [])],
          .finished 1 false, false, true, true⟩ := by
      simp only [main]
      rw [hmiss]
      have hne : (list_available_ports (p :: rest)).2.isEmpty = false := by
        simp [list_available_ports]
      simp only [hne, Bool.false_eq_true, if_false]
    rw [hmain]
    refine ⟨rfl, ?_⟩
    simp [list_available_ports]
  · intro a ports events
    refine ⟨rfl, ?_⟩
    show Msg.errorOpeningPort ∈ (applyHandler .onSerial [] false false).msgs
    simp [applyHandler]
  · intro a ports pre post hpre
    exact runLoop_skip_benign
      (fun r => r.exit = MonExit.finished 0 false ∧ Msg.monitoringStopped ∈ r.msgs)
      pre (LoopEvent.raised PyExc.keyboardInterrupt :: post) [Msg.banner] false hpre
      (fun msgs1 hit1 => ⟨rfl, by
        show Msg.monitoringStopped ∈ (applyHandler .onKeyboard msgs1 hit1 true).msgs
        simp [applyHandler]⟩)
  · intro a ports pre post hpre
    exact runLoop_skip_benign
      (fun r => r.exit = MonExit.finished 1 true ∧ Msg.unexpectedError ∈ r.msgs)
      pre (LoopEvent.raised PyExc.runtimeError :: post) [Msg.banner] false hpre
      (fun msgs1 hit1 => ⟨rfl, by
        show Msg.unexpectedError ∈ (applyHandler .onGeneric msgs1 hit1 true).msgs
        simp [applyHandler]⟩)

/-- Witness for C3: each failure kind exercised at a concrete input, with
its diagnostic and exit code. -/
theorem main_all_failures_caught_witness :
    exitCaught (main none [] true []).exit = true ∧
    ((main none [uartPort] true []).exit = MonExit.finished 1 false ∧
      Msg.specifyManually ∈ (main none [uartPort] true []).msgs) ∧
    ((main (some "/dev/ttyUSB0".toList) []
        true [LoopEvent.raised PyExc.keyboardInterrupt]).exit = MonExit.finished 0 false ∧
      Msg.monitoringStopped ∈ (main (some "/dev/ttyUSB0".toList) []
        true [LoopEvent.raised PyExc.keyboardInterrupt]).msgs) ∧
    Msg.unexpectedError ∈ (main (some "/dev/ttyUSB0".toList) []
        true [LoopEvent.raised PyExc.runtimeError]).msgs :=
  ⟨(main_all_failures_caught.1 none [] true []).1,
   main_all_failures_caught.2.2.1 uartPort [] true [] (by decide),
   main_all_failures_caught.2.2.2.2.1 ("/dev/ttyUSB0".toList) [] [] [] (by simp),
   (main_all_failures_caught.2.2.2.2.2 ("/dev/ttyUSB0".toList) [] [] [] (by simp)).2⟩

/-- C4: on a port list with no matching descriptor — in particular the
empty list — `find_daisy_port` returns nothing. -/
theorem find_daisy_port_none_of_no_match :
    find_daisy_port [] = none ∧
    ∀ (ports : List PortInfo), (∀ p ∈ ports, portMatches p = false) →
      find_daisy_port ports = none := by
  refine ⟨rfl, ?_⟩
  intro ports h
  induction ports with
  | nil => rfl
  | cons p rest ih =>
    simp only [find_daisy_port]
    rw [h p (by simp)]
    simp only [Bool.false_eq_true, if_false]
    exact ih (fun q hq => h q (by simp [hq]))

/-- Witness for C4 at a concrete non-matching port list. -/
theorem find_daisy_port_none_of_no_match_witness :
    (∀ p ∈ [uartPort], portMatches p = false) ∧ find_daisy_port [uartPort] = none :=
  ⟨by decide, find_daisy_port_none_of_no_match.2 [uartPort] (by decide)⟩

/-- C5: with an explicit port argument whose open fails, the program
prints the connection-error diagnostic, exits with code 1, and performs
neither auto-detect nor port enumeration. -/
theorem main_explicit_port_open_failure :
    ∀ (arg : List Char) (ports : List PortInfo) (events : List LoopEvent),
      (main (some arg) ports false events).exit = MonExit.finished 1 false ∧
      Msg.errorOpeningPort ∈ (main (some arg) ports false events).msgs ∧
      (main (some arg) ports false events).usedAutoDetect = false ∧
      (main (some arg) ports false events).usedEnumeration = false := by
  intro arg ports events
  refine ⟨rfl, ?_, rfl, rfl⟩
  show Msg.errorOpeningPort ∈ (applyHandler .onSerial [] false false).msgs
  simp [applyHandler]

/-- C6: with no argument and zero enumerated ports, the program exits
with code 1, printing the "No serial ports found!" message and the
checklist. -/
theorem main_no_ports_exits_1 :
    ∀ (openOk : Bool) (events : List LoopEvent),
      (main none [] openOk events).exit = MonExit.finished 1 false ∧
      Msg.noSerialPortsFound ∈ (main none [] openOk events).msgs ∧
      Msg.makeSure ∈ (main none [] openOk events).msgs ∧
      Msg.itemConnected ∈ (main none [] openOk events).msgs ∧
      Msg.itemNotBootloader ∈ (main none [] openOk events).msgs ∧
      Msg.itemFirmwareRunning ∈ (main none [] openOk events).msgs := by
  intro openOk events
  have hmain : main none [] openOk events =
      ⟨[.searching, .couldNotAutoDetect, .availableHeader, .noSerialPortsFound, .makeSure,
        .itemConnected, .itemNotBootloader, .itemFirmwareRunning],
        .finished 1 false, false, true, true⟩ := rfl
  rw [hmain]
  exact ⟨rfl, by decide, by decide, by decide, by decide, by decide⟩

/-- C7: with no argument, a non-empty port list and an auto-detect miss,
the program prints the port table, suggests the first available port in
a usage example, and exits with code 1. -/
theorem main_autodetect_miss_lists_ports :
    ∀ (p : PortInfo) (rest : List PortInfo) (openOk : Bool) (events : List LoopEvent),
      find_daisy_port (p :: rest) = none →
      (main none (p :: rest) openOk events).exit = MonExit.finished 1 false ∧
      Msg.availableHeader ∈ (main none (p :: rest) openOk events).msgs ∧
      (∀ q ∈ p :: rest,
        Msg.portLine q.device q.description ∈ (main none (p :: rest) openOk events).msgs) ∧
      Msg.specifyManually ∈ (main none (p :: rest) openOk events).msgs ∧
      Msg.usageExample p.device ∈ (main none (p :: rest) openOk events).msgs := by
  intro p rest openOk events hmiss
  have hmain : main none (p :: rest) openOk events =
      ⟨[.searching, .couldNotAutoDetect] ++ (list_available_ports (p :: rest)).1 ++
        [.specifyManually, .usageExample ((list_available_ports (p :: rest)).2.headD [])],
        .finished 1 false, false, true, true⟩ := by
    simp only [main]
    rw [hmiss]
    have hne : (list_available_ports (p :: rest)).2.isEmpty = false := by
      simp [list_available_ports]
    simp only [hne, Bool.false_eq_true, if_false]
  rw [hmain]
  refine ⟨rfl, ?_, ?_, ?_, ?_⟩
  · simp [list_available_ports]
  · intro q hq
    simp only [list_available_ports, List.mem_append, List.mem_map, List.mem_cons]
    refine Or.inl (Or.inr (Or.inr ⟨q, ?_, rfl⟩))
    simpa using hq
  · simp [list_available_ports]
  · simp [list_available_ports]

/-- Witness for C7 at a concrete one-port list. -/
theorem main_autodetect_miss_lists_ports_witness :
    (main none [uartPort] true []).exit = MonExit.finished 1 false ∧
    Msg.portLine uartPort.device uartPort.description ∈ (main none [uartPort] true []).msgs ∧
    Msg.usageExample uartPort.device ∈ (main none [uartPort] true []).msgs :=
  ⟨(main_autodetect_miss_lists_ports uartPort [] true [] (by decide)).1,
   (main_autodetect_miss_lists_ports uartPort [] true [] (by decide)).2.2.1 uartPort (by simp),
   (main_autodetect_miss_lists_ports uartPort [] true [] (by decide)).2.2.2.2⟩

/-- C8: tolerant decoding: a byte sequence made of valid UTF-8, one
invalid byte and valid UTF-8 again decodes — with `errors='ignore'` — to
the surrounding text with the invalid byte removed, and the decode step
never fails. -/
theorem decode_tolerant_one_invalid_byte :
    ∀ (l1 l2 t1 t2 : List Nat) (c : Nat),
      decodeUtf8 true l1 = Except.ok t1 → decodeUtf8 true l2 = Except.ok t2 →
      invalidStartByte c = true →
      decodeUtf8 false (l1 ++ c :: l2) = Except.ok (t1 ++ t2) ∧
      (decodeUtf8 false (l1 ++ c :: l2)).isOk = true :=
  fun _ _ _ _ _ h1 h2 hc =>
    ⟨decodeUtf8_ignore_splits h1 h2 hc, decodeUtf8_ignore_isOk _⟩

/-- Witness for C8: `"Hi" ++ [0xFF] ++ "!"` decodes to `"Hi!"`. -/
theorem decode_tolerant_one_invalid_byte_witness :
    decodeUtf8 true [72, 105] = Except.ok [72, 105] ∧
    decodeUtf8 true [33] = Except.ok [33] ∧
    invalidStartByte 255 = true ∧
    decodeUtf8 false ([72, 105] ++ 255 :: [33]) = Except.ok ([72, 105] ++ [33]) :=
  ⟨by simp [decodeUtf8, utf8DecodeOne, isCont, Except.map],
   by simp [decodeUtf8, utf8DecodeOne, isCont, Except.map],
   by decide,
   (decode_tolerant_one_invalid_byte [72, 105] [33] [72, 105] [33] 255
      (by simp [decodeUtf8, utf8DecodeOne, isCont, Except.map])
      (by simp [decodeUtf8, utf8DecodeOne, isCont, Except.map]) (by decide)).1⟩

/-- C9: a line whose decoded text is all whitespace strips to the empty
string, and the loop only ever prints non-empty stripped lines. -/
theorem whitespace_only_lines_not_printed :
    (∀ (openOk : Bool) (events : List LoopEvent) (line : List Nat),
        Msg.serialLine line ∈ (monitor_serial openOk events).msgs → line ≠ []) ∧
    (∀ bs cps : List Nat, decodeUtf8 false bs = Except.ok cps →
        (∀ c ∈ cps, isPySpace c = true) → pyStrip cps = []) := by
  constructor
  · intro openOk events line hmem
    cases openOk with
    | true =>
      refine runLoop_serialLine_ne_nil events [Msg.banner] false ?_ line hmem
      intro l hl
      simp at hl
    | false =>
      simp [monitor_serial, applyHandler] at hmem
  · intro bs cps _ hsp
    exact pyStrip_all_space hsp

/-- Witness for C9: a printed line is non-empty; an all-space line
strips to empty. -/
theorem whitespace_only_lines_not_printed_witness :
    ([72] : List Nat) ≠ [] ∧ pyStrip [32] = [] :=
  ⟨whitespace_only_lines_not_printed.1 true [LoopEvent.data [72]] [72]
     (by simp [monitor_serial, runLoop, decodeUtf8, utf8DecodeOne, pyStrip, isPySpace,
        Except.map, List.dropWhile]),
   whitespace_only_lines_not_printed.2 [32] [32]
     (by simp [decodeUtf8, utf8DecodeOne, Except.map]) (by decide)⟩

/-- C10: decoding with `errors='ignore'` is total, so the
`except UnicodeDecodeError` arm inside the loop is unreachable in every
run of the program. -/
theorem unicode_decode_error_branch_unreachable :
    (∀ bs : List Nat, (decodeUtf8 false bs).isOk = true) ∧
    (∀ (arg : Option (List Char)) (ports : List PortInfo)
       (openOk : Bool) (events : List LoopEvent),
       (main arg ports openOk events).decodeHandlerHit = false) := by
  refine ⟨decodeUtf8_ignore_isOk, ?_⟩
  intro arg ports openOk events
  have hmon : ∀ ok, (monitor_serial ok events).decodeHandlerHit = false := by
    intro ok
    cases ok with
    | true => exact runLoop_hit_false events [Msg.banner]
    | false => rfl
  cases arg with
  | some a => exact hmon openOk
  | none =>
    cases hfd : find_daisy_port ports with
    | some dev =>
      simp only [main]
      rw [hfd]
      exact hmon openOk
    | none =>
      simp only [main]
      rw [hfd]
      cases hie : (list_available_ports ports).2.isEmpty <;> simp [hie]

end MonitorSerial
